import Mathlib

/-!
Shallow embedding of the trainalert metric-tracking and notification-trigger
core (src/trainalert/utils/metrics.py and src/trainalert/core.py).

Modelling conventions:
* Metric values (Python floats) are modelled as rationals (`Rat`): the core
  logic only appends values and compares them under a linear order.
* Python's insertion-ordered `dict` is modelled as an association list.
* Wall-clock data (`timestamps`, `start_time`, `elapsed_time`) is omitted:
  no tracked claim mentions it and it does not influence any decision rule.
* Python truthiness of an `Optional[int]` (`if epoch:` / `epoch or n`) is
  modelled explicitly: `None` and `0` are falsy, every other int is truthy.
* Python truthiness of an optional string config entry: `None` and the empty
  string are falsy.
-/

/-- Python truthiness of an `Optional[int]` value: `None` and `0` are falsy. -/
def epochTruthy : Option Int → Bool
  | none => false
  | some x => decide (x ≠ 0)

/-- Python `epoch or n` where `epoch : Optional[int]` and `n` is a positive
length: yields `n` when `epoch` is `None` or `0`, else `epoch`. -/
def pyOrEpoch (e : Option Int) (n : Nat) : Int :=
  match e with
  | none => (n : Int)
  | some x => if x = 0 then (n : Int) else x

/-- Python truthiness of an optional string (`config.get(key)`): `None` and
the empty string are falsy. -/
def pyTruthyStr : Option String → Bool
  | none => false
  | some s => !s.isEmpty

/-- Lookup in an insertion-ordered association list (Python `dict[k]` /
`dict.get(k)`). -/
def lookupA {α : Type} (k : String) : List (String × α) → Option α
  | [] => none
  | (k', v) :: rest => if k = k' then some v else lookupA k rest

/-- `metrics.py` line 26-29: `if name not in metrics: metrics[name] = []`
then `metrics[name].append(value)`, on an insertion-ordered dict. -/
def insertAppend (k : String) (v : Rat) : List (String × List Rat) → List (String × List Rat)
  | [] => [(k, [v])]
  | (k', vs) :: rest => if k = k' then (k', vs ++ [v]) :: rest else (k', vs) :: insertAppend k v rest

/-- `best_metrics[name] = record` on an insertion-ordered dict. -/
def setBest {α : Type} (k : String) (b : α) : List (String × α) → List (String × α)
  | [] => [(k, b)]
  | (k', b') :: rest => if k = k' then (k', b) :: rest else (k', b') :: setBest k b rest

/-- ASCII lowercasing of one character (the fragment of Python `str.lower`
relevant to metric names). -/
def lowerChar (c : Char) : Char :=
  if 65 ≤ c.toNat ∧ c.toNat ≤ 90 then Char.ofNat (c.toNat + 32) else c

/-- Whether the first list is a prefix of the second, as a Boolean. -/
def startsWith : List Char → List Char → Bool
  | [], _ => true
  | _ :: _, [] => false
  | a :: as, b :: bs => a = b && startsWith as bs

/-- Whether `sub` occurs contiguously inside the second list (Python
`sub in s` on strings). -/
def containsSub (sub : List Char) : List Char → Bool
  | [] => sub.isEmpty
  | b :: bs => startsWith sub (b :: bs) || containsSub sub bs

/-- `metrics.py` line 49: lower-is-better iff the lowercased name contains
`"loss"` or `"error"`. -/
def is_loss (name : String) : Bool :=
  containsSub "loss".toList (name.toList.map lowerChar)
    || containsSub "error".toList (name.toList.map lowerChar)

/-- `metrics.py` line 52: strict improvement of `v` over the current best
`cur` under the metric's polarity. -/
def beats (name : String) (v cur : Rat) : Bool :=
  if is_loss name then decide (v < cur) else decide (cur < v)

/-- Per-metric best record (`best_metrics[name]`, metrics.py lines 41-45). -/
structure BestRecord where
  value : Rat
  epoch : Option Int
  improved : Bool
deriving DecidableEq, Repr

/-- State of `MetricTracker` (metrics.py lines 10-15), minus wall-clock
fields. -/
structure MetricTracker where
  metrics : List (String × List Rat)
  epochs : List Int
  best_metrics : List (String × BestRecord)
deriving DecidableEq, Repr

/-- A fresh tracker (`MetricTracker.__init__`). -/
def MetricTracker.init : MetricTracker := ⟨[], [], []⟩

/-- `MetricTracker._update_best_metric` (metrics.py lines 38-61). -/
def MetricTracker.update_best_metric (t : MetricTracker) (name : String) (value : Rat)
    (epoch : Option Int) : MetricTracker :=
  match lookupA name t.best_metrics with
  | none => { t with best_metrics := setBest name ⟨value, epoch, true⟩ t.best_metrics }
  | some cur =>
    if beats name value cur.value then
      { t with best_metrics := setBest name ⟨value, epoch, true⟩ t.best_metrics }
    else
      { t with best_metrics := setBest name { cur with improved := false } t.best_metrics }

/-- `MetricTracker.log` (metrics.py lines 17-36); the timestamp append is
wall-clock and omitted. -/
def MetricTracker.log (t : MetricTracker) (name : String) (value : Rat)
    (epoch : Option Int) : MetricTracker :=
  let t1 : MetricTracker := { t with metrics := insertAppend name value t.metrics }
  let t2 : MetricTracker :=
    match epoch with
    | some e => if e ∈ t1.epochs then t1 else { t1 with epochs := t1.epochs ++ [e] }
    | none => t1
  t2.update_best_metric name value epoch

/-- `MetricTracker.get_latest` (metrics.py lines 63-67). -/
def MetricTracker.get_latest (t : MetricTracker) (name : String) : Option Rat :=
  match lookupA name t.metrics with
  | some vs => vs.getLast?
  | none => none

/-- `MetricTracker.get_all` (metrics.py lines 69-71). -/
def MetricTracker.get_all (t : MetricTracker) (name : String) : List Rat :=
  (lookupA name t.metrics).getD []

/-- `MetricTracker.get_best` (metrics.py lines 73-75). -/
def MetricTracker.get_best (t : MetricTracker) (name : String) : Option BestRecord :=
  lookupA name t.best_metrics

/-- `MetricTracker.check_improvement` (metrics.py lines 102-106): the
`improved` key is always present when the record exists. -/
def MetricTracker.check_improvement (t : MetricTracker) (name : String) : Bool :=
  match lookupA name t.best_metrics with
  | some b => b.improved
  | none => false

/-- The summary built by `MetricTracker.get_summary` (metrics.py lines
77-100), minus the wall-clock elapsed-time fields. Each per-metric entry is
`(latest, best, best_epoch, count)`. -/
structure Summary where
  total_metrics : Nat
  total_epochs : Nat
  metricsSummary : List (String × (Rat × Option Rat × Option Int × Nat))
deriving DecidableEq, Repr

/-- `MetricTracker.get_summary` (metrics.py lines 77-100). -/
def MetricTracker.get_summary (t : MetricTracker) : Summary :=
  { total_metrics := t.metrics.length
    total_epochs := t.epochs.length
    metricsSummary := t.metrics.filterMap fun p =>
      match p.2.getLast? with
      | none => none
      | some last =>
        some (p.1, last, ((lookupA p.1 t.best_metrics).map BestRecord.value),
          ((lookupA p.1 t.best_metrics).bind BestRecord.epoch), p.2.length) }

/-- The latest value of every tracked metric, in tracking order: the dict
built by `TrainingNotifier.checkpoint` when no explicit metrics are given
(core.py lines 195-200). `get_latest` is `none` exactly on empty series. -/
def MetricTracker.latest_all (t : MetricTracker) : List (String × Rat) :=
  t.metrics.filterMap fun p =>
    match p.2.getLast? with
    | some v => some (p.1, v)
    | none => none

/-- A notification event dispatched by the controller; only the semantic
content is modelled (subject/body rendering is a stateless collaborator). -/
inductive Event where
  | improvementEv (name : String) (prev : Rat) (curr : Rat) (epochShown : Int)
  | checkpointEv (message : String) (metrics : List (String × Rat))
deriving DecidableEq, Repr

/-- A channel collaborator as the dispatch loop sees it: its cached `enabled`
flag (set in `__init__`, `notifiers/base.py` + each subclass) and the outcome
its `send_message` transport would produce if invoked (`Except.error` models a
raised exception). -/
structure Notifier where
  name : String
  enabled : Bool
  sendResult : Except String Bool

/-- `BaseNotifier.is_enabled` (base.py lines 50-52): reads the cached flag. -/
def Notifier.is_enabled (n : Notifier) : Bool := n.enabled

/-- The configuration entries that decide channel enablement
(`Config.config` keys consulted in the notifier constructors). -/
structure Config where
  email_address : Option String
  email_password : Option String
  slack_webhook_url : Option String
  discord_webhook_url : Option String

/-- `EmailNotifier.__init__` (email.py): disabled unless both the address and
the password are truthy. `sendResult` abstracts the SMTP transport. -/
def EmailNotifier.init (c : Config) (sendResult : Except String Bool) : Notifier :=
  { name := "EmailNotifier"
    enabled := pyTruthyStr c.email_address && pyTruthyStr c.email_password
    sendResult := sendResult }

/-- `SlackNotifier.__init__` (slack.py): disabled unless the webhook URL is
truthy. -/
def SlackNotifier.init (c : Config) (sendResult : Except String Bool) : Notifier :=
  { name := "SlackNotifier"
    enabled := pyTruthyStr c.slack_webhook_url
    sendResult := sendResult }

/-- `DiscordNotifier.__init__` (discord.py): disabled unless the webhook URL
is truthy. -/
def DiscordNotifier.init (c : Config) (sendResult : Except String Bool) : Notifier :=
  { name := "DiscordNotifier"
    enabled := pyTruthyStr c.discord_webhook_url
    sendResult := sendResult }

/-- `TrainingNotifier._setup_notifiers` (core.py lines 94-113): each backend
is constructed and kept only if enabled. -/
def setup_notifiers (c : Config) (er sr dr : Except String Bool) : List Notifier :=
  let e := EmailNotifier.init c er
  let s := SlackNotifier.init c sr
  let d := DiscordNotifier.init c dr
  (if e.is_enabled then [e] else [])
    ++ (if s.is_enabled then [s] else [])
    ++ (if d.is_enabled then [d] else [])

/-- One iteration of the loop in `_send_to_all_notifiers` (core.py lines
324-334): a disabled notifier is skipped; an enabled one gets a `send_message`
call, and a raised exception is caught and logged locally, so the step itself
never raises. The accumulator records which notifiers received a send call. -/
def send_step (acc : List String) (n : Notifier) : Except String (List String) :=
  if n.is_enabled then
    match n.sendResult with
    | Except.ok _ => Except.ok (acc ++ [n.name])
    | Except.error _ => Except.ok (acc ++ [n.name])
  else
    Except.ok acc

/-- `TrainingNotifier._send_to_all_notifiers` (core.py lines 316-334), in the
exception monad: an uncaught exception would surface as `Except.error`. -/
def send_to_all_notifiers (ns : List Notifier) : Except String (List String) :=
  ns.foldlM send_step []

/-- State of `TrainingNotifier` (core.py lines 24-92) restricted to the
fields the decision rules read. -/
structure TrainingNotifier where
  training_name : String
  notify_every_n_epochs : Int
  notify_on_improvement : Bool
  notify_on_error : Bool
  metric_tracker : MetricTracker
  notifiers : List Notifier

/-- `TrainingNotifier.checkpoint` (core.py lines 186-220): one dispatch whose
metrics are the explicit ones when given, else the latest value of every
tracked metric. -/
def TrainingNotifier.checkpoint (tn : TrainingNotifier) (message : String)
    (metrics : Option (List (String × Rat))) : List Event :=
  let ms := match metrics with
    | some m => m
    | none => tn.metric_tracker.latest_all
  [Event.checkpointEv message ms]

/-- The epoch-boundary block shared by `log_metric` (core.py lines 165-168)
and `log_metrics` (lines 181-184): Python `if epoch and self.notify_every_n_epochs > 0`
treats `None` and `0` as falsy. -/
def TrainingNotifier.epoch_checkpoint (tn : TrainingNotifier) (epoch : Option Int)
    (explicitMetrics : Option (List (String × Rat))) : List Event :=
  if epochTruthy epoch && decide (0 < tn.notify_every_n_epochs) then
    if (epoch.getD 0) % tn.notify_every_n_epochs = 0 then
      tn.checkpoint ("Epoch " ++ toString (epoch.getD 0) ++ " completed") explicitMetrics
    else []
  else []

/-- The improvement block of `log_metric` (core.py lines 149-163), executed on
the state `tn` whose tracker has already logged the value. Python
`epoch or len(all_values)` treats `None` and `0` as falsy. -/
def TrainingNotifier.improvement_check (tn : TrainingNotifier) (name : String)
    (value : Rat) (epoch : Option Int) : List Event :=
  if tn.notify_on_improvement && tn.metric_tracker.check_improvement name then
    match tn.metric_tracker.get_best name with
    | some _ =>
      if 1 < (tn.metric_tracker.get_all name).length then
        let all_values := tn.metric_tracker.get_all name
        if 2 ≤ all_values.length then
          [Event.improvementEv name (all_values.getD (all_values.length - 2) 0) value
            (pyOrEpoch epoch all_values.length)]
        else []
      else []
    | none => []
  else []

/-- `TrainingNotifier.log_metric` (core.py lines 138-168): log, then the
improvement block, then the epoch-boundary block (no explicit metrics). -/
def TrainingNotifier.log_metric (tn : TrainingNotifier) (name : String) (value : Rat)
    (epoch : Option Int) : TrainingNotifier × List Event :=
  let tn' : TrainingNotifier :=
    { tn with metric_tracker := tn.metric_tracker.log name value epoch }
  (tn', tn'.improvement_check name value epoch ++ tn'.epoch_checkpoint epoch none)

/-- `TrainingNotifier.log_metrics` (core.py lines 170-184): log every entry in
mapping order, then the epoch-boundary block once, with the mapping as
explicit checkpoint metrics. -/
def TrainingNotifier.log_metrics (tn : TrainingNotifier) (metrics : List (String × Rat))
    (epoch : Option Int) : TrainingNotifier × List Event :=
  let tn' : TrainingNotifier :=
    { tn with metric_tracker :=
        metrics.foldl (fun t p => t.log p.1 p.2 epoch) tn.metric_tracker }
  (tn', tn'.epoch_checkpoint epoch (some metrics))

/-- Recognizer for checkpoint events. -/
def isCheckpointEv : Event → Bool
  | Event.checkpointEv _ _ => true
  | Event.improvementEv _ _ _ _ => false

/-- Recognizer for improvement events. -/
def isImprovementEv : Event → Bool
  | Event.improvementEv _ _ _ _ => true
  | Event.checkpointEv _ _ => false

/-- Number of checkpoint dispatches in an event list. -/
def countCheckpoints (evts : List Event) : Nat := (evts.filter isCheckpointEv).length

/-- The improvement dispatches in an event list, in order. -/
def improvementsOf (evts : List Event) : List Event := evts.filter isImprovementEv

/-- One `log` call, for replaying call sequences against a fresh tracker. -/
structure LogCall where
  name : String
  value : Rat
  epoch : Option Int
deriving DecidableEq, Repr

/-- The tracker obtained by replaying a sequence of `log` calls from a fresh
tracker. -/
def replay (calls : List LogCall) : MetricTracker :=
  calls.foldl (fun t c => t.log c.name c.value c.epoch) MetricTracker.init

/-- The values logged under `name` by a call sequence, in call order. -/
def valuesFor (name : String) (calls : List LogCall) : List Rat :=
  calls.filterMap fun c => if c.name = name then some c.value else none

/-- The (value, epoch) pairs logged under `name` by a call sequence. -/
def pairsFor (name : String) (calls : List LogCall) : List (Rat × Option Int) :=
  calls.filterMap fun c => if c.name = name then some (c.value, c.epoch) else none

/-- One best-record transition, as the spec describes it: a first value is
recorded as best with `improved = true`; a later value replaces the best
(with `improved = true`) iff it strictly beats it under polarity, otherwise
only `improved` is reset to `false`. -/
def bestStep (name : String) : Option BestRecord → Rat × Option Int → Option BestRecord
  | none, (v, e) => some ⟨v, e, true⟩
  | some cur, (v, e) =>
    if beats name v cur.value then some ⟨v, e, true⟩
    else some ⟨cur.value, cur.epoch, false⟩

/-- The best record predicted for `name` after a call sequence. -/
def bestRecFor (name : String) (calls : List LogCall) : Option BestRecord :=
  (pairsFor name calls).foldl (bestStep name) none

/-- Spec-side best value: the minimum of the values logged so far for a
lower-is-better name, else the maximum (`none` when nothing was logged). -/
def bestValSpec (name : String) : List Rat → Option Rat
  | [] => none
  | v :: vs => some (vs.foldl (fun b x => if is_loss name then min b x else max b x) v)

/-- Spec-side `improved` flag after the last log of `vs`: `false` when the
metric was never logged, `true` on the first-ever value, and otherwise true
iff the last value strictly beats the best of the earlier values. -/
def specImproved (name : String) (vs : List Rat) : Bool :=
  match vs.getLast?, bestValSpec name vs.dropLast with
  | none, _ => false
  | some _, none => true
  | some v, some b => beats name v b

/-- Appending a distinct epoch (`metrics.py` lines 32-33). -/
def pushDistinct (l : List Int) (e : Int) : List Int :=
  if e ∈ l then l else l ++ [e]

/-- The distinct-epoch list predicted after a call sequence. -/
def epochsFor (calls : List LogCall) : List Int :=
  (calls.filterMap LogCall.epoch).foldl pushDistinct []

/-- A controller with the default policy (`notify_every_n_epochs = 10`,
`notify_on_improvement = true`) and a fresh tracker, used for concrete
evaluations. -/
def tnBase : TrainingNotifier :=
  { training_name := "ML Training"
    notify_every_n_epochs := 10
    notify_on_improvement := true
    notify_on_error := true
    metric_tracker := MetricTracker.init
    notifiers := [] }

theorem lookupA_insertAppend_self (k : String) (v : Rat) (l : List (String × List Rat)) :
    lookupA k (insertAppend k v l) = some (((lookupA k l).getD []) ++ [v]) := by
  induction l with
  | nil => simp [insertAppend, lookupA]
  | cons p rest ih =>
    obtain ⟨k', vs⟩ := p
    by_cases h : k = k'
    · subst h; simp [insertAppend, lookupA]
    · simp [insertAppend, lookupA, h, ih]

theorem lookupA_insertAppend_ne (k k' : String) (v : Rat) (l : List (String × List Rat))
    (h : k' ≠ k) : lookupA k' (insertAppend k v l) = lookupA k' l := by
  induction l with
  | nil => simp [insertAppend, lookupA, h]
  | cons p rest ih =>
    obtain ⟨k'', vs⟩ := p
    by_cases h2 : k = k''
    · subst h2; simp [insertAppend, lookupA, h, ih]
    · by_cases h3 : k' = k'' <;> simp [insertAppend, lookupA, h2, h3, ih]

theorem lookupA_setBest_self {α : Type} (k : String) (b : α) (l : List (String × α)) :
    lookupA k (setBest k b l) = some b := by
  induction l with
  | nil => simp [setBest, lookupA]
  | cons p rest ih =>
    obtain ⟨k', b'⟩ := p
    by_cases h : k = k'
    · subst h; simp [setBest, lookupA]
    · simp [setBest, lookupA, h, ih]

theorem lookupA_setBest_ne {α : Type} (k k' : String) (b : α) (l : List (String × α))
    (h : k' ≠ k) : lookupA k' (setBest k b l) = lookupA k' l := by
  induction l with
  | nil => simp [setBest, lookupA, h]
  | cons p rest ih =>
    obtain ⟨k'', b'⟩ := p
    by_cases h2 : k = k''
    · subst h2; simp [setBest, lookupA, h, ih]
    · by_cases h3 : k' = k'' <;> simp [setBest, lookupA, h2, h3, ih]

theorem update_best_metrics_eq (t : MetricTracker) (n : String) (v : Rat) (e : Option Int) :
    (t.update_best_metric n v e).metrics = t.metrics := by
  unfold MetricTracker.update_best_metric
  cases lookupA n t.best_metrics with
  | none => rfl
  | some cur => by_cases h : beats n v cur.value <;> simp [h]

theorem update_best_epochs_eq (t : MetricTracker) (n : String) (v : Rat) (e : Option Int) :
    (t.update_best_metric n v e).epochs = t.epochs := by
  unfold MetricTracker.update_best_metric
  cases lookupA n t.best_metrics with
  | none => rfl
  | some cur => by_cases h : beats n v cur.value <;> simp [h]

theorem update_best_lookup (t : MetricTracker) (n : String) (v : Rat) (e : Option Int)
    (name : String) :
    lookupA name (t.update_best_metric n v e).best_metrics =
      if name = n then bestStep n (lookupA n t.best_metrics) (v, e)
      else lookupA name t.best_metrics := by
  unfold MetricTracker.update_best_metric bestStep
  cases h : lookupA n t.best_metrics with
  | none =>
    by_cases hn : name = n
    · subst hn; simp [lookupA_setBest_self, h]
    · simp [lookupA_setBest_ne _ _ _ _ hn, hn]
  | some cur =>
    by_cases hb : beats n v cur.value <;> by_cases hn : name = n
    · subst hn; simp [hb, lookupA_setBest_self, h]
    · simp [hb, lookupA_setBest_ne _ _ _ _ hn, hn]
    · subst hn; simp [hb, lookupA_setBest_self, h]
    · simp [hb, lookupA_setBest_ne _ _ _ _ hn, hn]

theorem log_metrics_eq (t : MetricTracker) (n : String) (v : Rat) (e : Option Int) :
    (t.log n v e).metrics = insertAppend n v t.metrics := by
  unfold MetricTracker.log
  cases e with
  | none => simp [update_best_metrics_eq]
  | some x => by_cases h : x ∈ t.epochs <;> simp [h, update_best_metrics_eq]

theorem log_epochs_eq (t : MetricTracker) (n : String) (v : Rat) (e : Option Int) :
    (t.log n v e).epochs =
      match e with
      | none => t.epochs
      | some x => pushDistinct t.epochs x := by
  unfold MetricTracker.log pushDistinct
  cases e with
  | none => simp [update_best_epochs_eq]
  | some x => by_cases h : x ∈ t.epochs <;> simp [h, update_best_epochs_eq]

theorem log_best_lookup (t : MetricTracker) (n : String) (v : Rat) (e : Option Int)
    (name : String) :
    lookupA name (t.log n v e).best_metrics =
      if name = n then bestStep n (lookupA n t.best_metrics) (v, e)
      else lookupA name t.best_metrics := by
  unfold MetricTracker.log
  cases e with
  | none => simpa using update_best_lookup _ n v none name
  | some x =>
    by_cases h : x ∈ t.epochs <;> simpa [h] using update_best_lookup _ n v (some x) name

theorem log_lookup_metrics (t : MetricTracker) (n : String) (v : Rat) (e : Option Int)
    (name : String) :
    lookupA name (t.log n v e).metrics =
      if name = n then some (((lookupA n t.metrics).getD []) ++ [v])
      else lookupA name t.metrics := by
  rw [log_metrics_eq]
  by_cases hn : name = n
  · subst hn; simp [lookupA_insertAppend_self]
  · simp [lookupA_insertAppend_ne _ _ _ _ hn, hn]

theorem replay_append (calls : List LogCall) (c : LogCall) :
    replay (calls ++ [c]) = (replay calls).log c.name c.value c.epoch := by
  simp [replay, List.foldl_append]

theorem valuesFor_append (name : String) (calls : List LogCall) (c : LogCall) :
    valuesFor name (calls ++ [c])
      = valuesFor name calls ++ (if c.name = name then [c.value] else []) := by
  by_cases h : c.name = name <;> simp [valuesFor, List.filterMap_append, h]

theorem pairsFor_append (name : String) (calls : List LogCall) (c : LogCall) :
    pairsFor name (calls ++ [c])
      = pairsFor name calls ++ (if c.name = name then [(c.value, c.epoch)] else []) := by
  by_cases h : c.name = name <;> simp [pairsFor, List.filterMap_append, h]

theorem replay_metrics_lookup (calls : List LogCall) (name : String) :
    lookupA name (replay calls).metrics =
      if valuesFor name calls = [] then none else some (valuesFor name calls) := by
  induction calls using List.reverseRecOn with
  | nil => simp [replay, MetricTracker.init, lookupA, valuesFor]
  | append_singleton l c ih =>
    rw [replay_append, log_lookup_metrics, valuesFor_append]
    by_cases hc : c.name = name
    · subst hc
      by_cases hv : valuesFor c.name l = [] <;> simp [hv, ih]
    · have hne : ¬ (name = c.name) := fun h => hc h.symm
      simp [hne, hc, ih]

theorem replay_best_lookup (calls : List LogCall) (name : String) :
    lookupA name (replay calls).best_metrics = bestRecFor name calls := by
  induction calls using List.reverseRecOn with
  | nil => simp [replay, MetricTracker.init, lookupA, bestRecFor, pairsFor]
  | append_singleton l c ih =>
    rw [replay_append, log_best_lookup]
    unfold bestRecFor
    rw [pairsFor_append]
    by_cases hc : c.name = name
    · subst hc
      simp [List.foldl_append, ih, bestRecFor]
    · have hne : ¬ (name = c.name) := fun h => hc h.symm
      simp [hne, hc, ih, bestRecFor]

theorem replay_epochs (calls : List LogCall) :
    (replay calls).epochs = epochsFor calls := by
  induction calls using List.reverseRecOn with
  | nil => simp [replay, MetricTracker.init, epochsFor]
  | append_singleton l c ih =>
    rw [replay_append, log_epochs_eq]
    unfold epochsFor
    cases hc : c.epoch with
    | none => simpa [List.filterMap_append, hc] using ih
    | some x => simp [List.filterMap_append, hc, List.foldl_append, ih, epochsFor]

theorem bestChoice (name : String) (v cur : Rat) :
    (if beats name v cur then v else cur)
      = (if is_loss name then min cur v else max cur v) := by
  unfold beats
  by_cases hl : is_loss name <;> simp [hl, min_def, max_def] <;> split_ifs <;> linarith

theorem bestFold_value_some (name : String) (ps : List (Rat × Option Int)) (b : BestRecord) :
    (ps.foldl (bestStep name) (some b)).map BestRecord.value
      = some ((ps.map Prod.fst).foldl
          (fun acc x => if is_loss name then min acc x else max acc x) b.value) := by
  induction ps generalizing b with
  | nil => simp
  | cons p ps ih =>
    obtain ⟨v, e⟩ := p
    by_cases h : beats name v b.value
    · simpa [bestStep, h, ← bestChoice] using ih ⟨v, e, true⟩
    · simpa [bestStep, h, ← bestChoice] using ih ⟨b.value, b.epoch, false⟩

theorem valuesFor_eq_pairs (name : String) (calls : List LogCall) :
    valuesFor name calls = (pairsFor name calls).map Prod.fst := by
  induction calls with
  | nil => simp [valuesFor, pairsFor]
  | cons c cs ih =>
    by_cases h : c.name = name <;> simp [valuesFor, pairsFor, h] at ih ⊢ <;> exact ih

theorem bestFoldVal (name : String) (ps : List (Rat × Option Int)) :
    (ps.foldl (bestStep name) none).map BestRecord.value
      = bestValSpec name (ps.map Prod.fst) := by
  cases ps with
  | nil => simp [bestValSpec]
  | cons p ps =>
    obtain ⟨v, e⟩ := p
    simpa [bestStep, bestValSpec] using bestFold_value_some name ps ⟨v, e, true⟩

theorem bestRecFor_value (name : String) (calls : List LogCall) :
    (bestRecFor name calls).map BestRecord.value
      = bestValSpec name (valuesFor name calls) := by
  rw [bestRecFor, valuesFor_eq_pairs, bestFoldVal]

theorem bestFold_isSome (name : String) (ps : List (Rat × Option Int)) (b : BestRecord) :
    (ps.foldl (bestStep name) (some b)).isSome = true := by
  induction ps generalizing b with
  | nil => simp
  | cons p ps ih =>
    obtain ⟨v, e⟩ := p
    by_cases h : beats name v b.value <;> simp [bestStep, h, ih]

theorem bestFold_improved (name : String) (ps : List (Rat × Option Int)) :
    (match ps.foldl (bestStep name) none with
      | some b => b.improved
      | none => false)
      = specImproved name (ps.map Prod.fst) := by
  induction ps using List.reverseRecOn with
  | nil => simp [specImproved]
  | append_singleton qs q ih =>
    obtain ⟨v, e⟩ := q
    rw [List.foldl_append]
    cases hq : qs.foldl (bestStep name) none with
    | none =>
      have hqe : qs = [] := by
        cases qs with
        | nil => rfl
        | cons r rs =>
          obtain ⟨rv, re⟩ := r
          have := bestFold_isSome name rs ⟨rv, re, true⟩
          rw [List.foldl_cons] at hq
          simp [bestStep] at hq
          rw [hq] at this
          simp at this
      subst hqe
      simp [bestStep, specImproved, bestValSpec]
    | some b =>
      have hv : some b.value = bestValSpec name (qs.map Prod.fst) := by
        have := bestFoldVal name qs
        rw [hq] at this
        simpa using this
      by_cases hb : beats name v b.value <;>
        simp [bestStep, hb, specImproved, List.dropLast_concat, ← hv]

theorem bestRecFor_improved (name : String) (calls : List LogCall) :
    (match bestRecFor name calls with
      | some b => b.improved
      | none => false)
      = specImproved name (valuesFor name calls) := by
  rw [bestRecFor, valuesFor_eq_pairs, bestFold_improved]

theorem pushFold_spec (l acc : List Int) (hacc : acc.Nodup) :
    (l.foldl pushDistinct acc).Nodup
      ∧ (l.foldl pushDistinct acc).toFinset = acc.toFinset ∪ l.toFinset := by
  induction l generalizing acc with
  | nil => simpa using hacc
  | cons a l ih =>
    rw [List.foldl_cons]
    by_cases h : a ∈ acc
    · have hmem : a ∈ acc.toFinset := List.mem_toFinset.mpr h
      obtain ⟨h1, h2⟩ := ih acc hacc
      refine ⟨?_, ?_⟩
      · simpa [pushDistinct, h] using h1
      · rw [pushDistinct, if_pos h, h2]
        ext x
        simp only [Finset.mem_union, List.toFinset_cons, Finset.mem_insert, List.mem_toFinset]
        constructor
        · tauto
        · rintro (h3 | h3 | h3) <;> [skip; subst h3; skip] <;> tauto
    · have hacc' : (acc ++ [a]).Nodup := by
        rw [List.nodup_append]
        exact ⟨hacc, List.nodup_singleton a, by simpa using h⟩
      obtain ⟨h1, h2⟩ := ih (acc ++ [a]) hacc'
      refine ⟨by simpa [pushDistinct, h] using h1, ?_⟩
      rw [pushDistinct, if_neg h, h2]
      ext x
      simp only [Finset.mem_union, List.toFinset_append, List.toFinset_cons,
        Finset.mem_insert, List.mem_toFinset, List.mem_singleton]
      tauto

theorem epochsFor_card (calls : List LogCall) :
    (epochsFor calls).length = (calls.filterMap LogCall.epoch).toFinset.card := by
  obtain ⟨h1, h2⟩ := pushFold_spec (calls.filterMap LogCall.epoch) [] List.nodup_nil
  unfold epochsFor
  rw [← List.toFinset_card_of_nodup h1, h2]
  simp

theorem countCheckpoints_append (a b : List Event) :
    countCheckpoints (a ++ b) = countCheckpoints a + countCheckpoints b := by
  simp [countCheckpoints, List.filter_append]

theorem improvementsOf_append (a b : List Event) :
    improvementsOf (a ++ b) = improvementsOf a ++ improvementsOf b := by
  simp [improvementsOf, List.filter_append]

theorem countCheckpoints_improvement_check (tn : TrainingNotifier) (name : String)
    (v : Rat) (e : Option Int) :
    countCheckpoints (tn.improvement_check name v e) = 0 := by
  unfold TrainingNotifier.improvement_check
  split
  · split
    · split
      · by_cases h4 : 2 ≤ (tn.metric_tracker.get_all name).length <;>
          simp [h4, countCheckpoints, isCheckpointEv]
      · simp [countCheckpoints]
    · simp [countCheckpoints]
  · simp [countCheckpoints]

theorem improvementsOf_improvement_check (tn : TrainingNotifier) (name : String)
    (v : Rat) (e : Option Int) :
    improvementsOf (tn.improvement_check name v e) = tn.improvement_check name v e := by
  unfold TrainingNotifier.improvement_check
  split
  · split
    · split
      · by_cases h4 : 2 ≤ (tn.metric_tracker.get_all name).length <;>
          simp [h4, improvementsOf, isImprovementEv]
      · simp [improvementsOf]
    · simp [improvementsOf]
  · simp [improvementsOf]

theorem countCheckpoints_epoch_checkpoint (tn : TrainingNotifier) (e : Option Int)
    (m : Option (List (String × Rat))) :
    countCheckpoints (tn.epoch_checkpoint e m)
      = if epochTruthy e = true ∧ 0 < tn.notify_every_n_epochs
            ∧ (e.getD 0) % tn.notify_every_n_epochs = 0
        then 1 else 0 := by
  unfold TrainingNotifier.epoch_checkpoint TrainingNotifier.checkpoint
  by_cases h1 : epochTruthy e = true <;>
    by_cases h2 : 0 < tn.notify_every_n_epochs <;>
      by_cases h3 : (e.getD 0) % tn.notify_every_n_epochs = 0 <;>
        simp [h1, h2, h3, countCheckpoints, isCheckpointEv]

theorem improvementsOf_epoch_checkpoint (tn : TrainingNotifier) (e : Option Int)
    (m : Option (List (String × Rat))) :
    improvementsOf (tn.epoch_checkpoint e m) = [] := by
  unfold TrainingNotifier.epoch_checkpoint TrainingNotifier.checkpoint
  split
  · split <;> simp [improvementsOf, isImprovementEv]
  · simp [improvementsOf]

theorem send_spec (ns : List Notifier) (acc : List String) :
    ns.foldlM send_step acc
      = Except.ok (acc ++ (ns.filter Notifier.is_enabled).map Notifier.name) := by
  induction ns generalizing acc with
  | nil =>
    simp only [List.foldlM_nil, List.filter_nil, List.map_nil, List.append_nil]
    rfl
  | cons n ns ih =>
    rw [List.foldlM_cons]
    have hstep : send_step acc n
        = Except.ok (if n.is_enabled then acc ++ [n.name] else acc) := by
      unfold send_step
      by_cases h : n.is_enabled
      · cases n.sendResult <;> simp [h]
      · simp [h]
    rw [hstep]
    have hrest : ((Except.ok (if n.is_enabled then acc ++ [n.name] else acc) :
          Except String (List String)) >>= fun b' => ns.foldlM send_step b')
        = ns.foldlM send_step (if n.is_enabled then acc ++ [n.name] else acc) := rfl
    rw [hrest]
    by_cases h : n.is_enabled <;> simp [h, ih, List.filter_cons]

/-- C2: after any sequence of `log` calls the best record's value equals the
best value logged so far under the metric's polarity; `check_improvement`
is false for a never-logged metric, true after a first-ever log, and after a
later log true iff the new value strictly beat the prior best; one `log` step
replaces the best record iff the value strictly improves, otherwise it only
clears the `improved` flag, keeping the stored value and epoch. -/
theorem C2_best_record_invariant (calls : List LogCall) (name : String)
    (t : MetricTracker) (v : Rat) (e : Option Int) :
    ((replay calls).get_best name).map BestRecord.value
        = bestValSpec name (valuesFor name calls)
    ∧ (replay calls).check_improvement name = specImproved name (valuesFor name calls)
    ∧ (t.log name v e).get_best name = bestStep name (t.get_best name) (v, e) := by
  refine ⟨?_, ?_, ?_⟩
  · rw [MetricTracker.get_best, replay_best_lookup, bestRecFor_value]
  · unfold MetricTracker.check_improvement
    rw [replay_best_lookup]
    exact bestRecFor_improved name calls
  · unfold MetricTracker.get_best
    rw [log_best_lookup]
    simp

/-- C5: after any sequence of `log` calls, `get_all` returns exactly the
values logged under the name in call order (so `[]` for a never-logged name)
and `get_latest` returns the last of them (`none` for a never-logged name). -/
theorem C5_history (calls : List LogCall) (name : String) :
    (replay calls).get_all name = valuesFor name calls
    ∧ (replay calls).get_latest name = (valuesFor name calls).getLast? := by
  have h := replay_metrics_lookup calls name
  constructor
  · unfold MetricTracker.get_all
    rw [h]
    by_cases hv : valuesFor name calls = [] <;> simp [hv]
  · unfold MetricTracker.get_latest
    rw [h]
    by_cases hv : valuesFor name calls = [] <;> simp [hv]

/-- C9: after any sequence of `log` calls, the summary's `total_epochs`
equals the number of distinct epoch values passed to `log` (each distinct
epoch, including `0`, counted once). -/
theorem C9_total_epochs (calls : List LogCall) :
    (replay calls).get_summary.total_epochs
      = (calls.filterMap LogCall.epoch).toFinset.card := by
  show (replay calls).epochs.length = _
  rw [replay_epochs, epochsFor_card]

/-- C10: one `log` call leaves the series, latest value and best record of
every other metric name unchanged. -/
theorem C10_frame_other_metrics (t : MetricTracker) (name : String) (v : Rat)
    (e : Option Int) (other : String) (h : other ≠ name) :
    (t.log name v e).get_all other = t.get_all other
    ∧ (t.log name v e).get_latest other = t.get_latest other
    ∧ (t.log name v e).get_best other = t.get_best other := by
  have hm := log_lookup_metrics t name v e other
  rw [if_neg h] at hm
  have hb := log_best_lookup t name v e other
  rw [if_neg h] at hb
  refine ⟨?_, ?_, ?_⟩
  · unfold MetricTracker.get_all; rw [hm]
  · unfold MetricTracker.get_latest; rw [hm]
  · unfold MetricTracker.get_best; rw [hb]

/-- Witness for C10 at a concrete state: logging `"a"` does not disturb the
state of metric `"b"`. -/
theorem C10_frame_other_metrics_witness :
    ("b" : String) ≠ "a"
    ∧ (((MetricTracker.init.log "a" 1 none).log "a" 2 none).get_all "b"
          = (MetricTracker.init.log "a" 1 none).get_all "b"
        ∧ ((MetricTracker.init.log "a" 1 none).log "a" 2 none).get_latest "b"
          = (MetricTracker.init.log "a" 1 none).get_latest "b"
        ∧ ((MetricTracker.init.log "a" 1 none).log "a" 2 none).get_best "b"
          = (MetricTracker.init.log "a" 1 none).get_best "b") :=
  ⟨by decide,
    C10_frame_other_metrics (MetricTracker.init.log "a" 1 none) "a" 2 none "b" (by decide)⟩

theorem mem_improvement_check (tn : TrainingNotifier) (name : String) (v : Rat)
    (e : Option Int) (ev : Event) (h : ev ∈ tn.improvement_check name v e) :
    ev = Event.improvementEv name
      ((tn.metric_tracker.get_all name).getD ((tn.metric_tracker.get_all name).length - 2) 0)
      v (pyOrEpoch e (tn.metric_tracker.get_all name).length) := by
  unfold TrainingNotifier.improvement_check at h
  split at h
  · split at h
    · split at h
      · by_cases h4 : 2 ≤ (tn.metric_tracker.get_all name).length
        · simp only [h4, if_true, List.mem_singleton] at h
          exact h
        · simp [h4] at h
      · simp at h
    · simp at h
  · simp at h

theorem mem_epoch_checkpoint (tn : TrainingNotifier) (e : Option Int)
    (m : Option (List (String × Rat))) (ev : Event) (h : ev ∈ tn.epoch_checkpoint e m) :
    isCheckpointEv ev = true := by
  unfold TrainingNotifier.epoch_checkpoint TrainingNotifier.checkpoint at h
  split at h
  · split at h
    · simp only [List.mem_singleton] at h
      rw [h]
      rfl
    · simp at h
  · simp at h

/-- C1 counterexample: with the default policy (`notify_every_n_epochs = 10`)
a `log_metric` call at the non-null epoch `0` — for which `0 mod 10 = 0` —
dispatches no checkpoint at all, refuting "exactly one checkpoint dispatch
... including epoch = 0". -/
theorem C1_checkpoint_at_epoch_zero_cex :
    (some 0 : Option Int) ≠ none
    ∧ tnBase.notify_every_n_epochs = 10
    ∧ (0 : Int) % 10 = 0
    ∧ countCheckpoints (tnBase.log_metric "loss" 1 (some 0)).2 = 0 := by
  refine ⟨by decide, by decide, by decide, by decide⟩

/-- C1 amended: `log_metric` and `log_metrics` dispatch exactly one checkpoint
when the epoch is non-null and non-zero, `notify_every_n_epochs > 0` and
`epoch mod notify_every_n_epochs = 0`, and none otherwise; in particular
epoch `0` and `notify_every_n_epochs = 0` never trigger one. -/
theorem C1_epoch_checkpoint_gate (tn : TrainingNotifier) (name : String) (v : Rat)
    (ms : List (String × Rat)) (epoch : Option Int) :
    countCheckpoints (tn.log_metric name v epoch).2
        = (if epochTruthy epoch = true ∧ 0 < tn.notify_every_n_epochs
              ∧ (epoch.getD 0) % tn.notify_every_n_epochs = 0 then 1 else 0)
    ∧ countCheckpoints (tn.log_metrics ms epoch).2
        = (if epochTruthy epoch = true ∧ 0 < tn.notify_every_n_epochs
              ∧ (epoch.getD 0) % tn.notify_every_n_epochs = 0 then 1 else 0) := by
  constructor
  · simp only [TrainingNotifier.log_metric]
    rw [countCheckpoints_append, countCheckpoints_improvement_check,
      countCheckpoints_epoch_checkpoint]
    simp
  · simp only [TrainingNotifier.log_metrics]
    rw [countCheckpoints_epoch_checkpoint]

/-- C3: `log_metric` dispatches an improvement notification iff improvement
notifications are enabled, the logged value improved per `check_improvement`,
and the metric's history now holds more than one value (so never on the
first-ever value); the notification reports the second-to-last history value
as the previous value, and at most one such notification is dispatched. -/
theorem C3_improvement_dispatch (tn : TrainingNotifier) (name : String) (v : Rat)
    (e : Option Int) :
    improvementsOf (tn.log_metric name v e).2
      = (if tn.notify_on_improvement = true
            ∧ (tn.metric_tracker.log name v e).check_improvement name = true
            ∧ 1 < ((tn.metric_tracker.log name v e).get_all name).length
         then
           [Event.improvementEv name
              (((tn.metric_tracker.log name v e).get_all name).getD
                (((tn.metric_tracker.log name v e).get_all name).length - 2) 0)
              v
              (pyOrEpoch e ((tn.metric_tracker.log name v e).get_all name).length)]
         else []) := by
  simp only [TrainingNotifier.log_metric]
  rw [improvementsOf_append, improvementsOf_epoch_checkpoint, List.append_nil,
    improvementsOf_improvement_check]
  unfold TrainingNotifier.improvement_check
  by_cases h1 : tn.notify_on_improvement = true
  · by_cases h2 : (tn.metric_tracker.log name v e).check_improvement name = true
    · obtain ⟨b, hb⟩ :
          ∃ b, lookupA name (tn.metric_tracker.log name v e).best_metrics = some b := by
        unfold MetricTracker.check_improvement at h2
        cases hb : lookupA name (tn.metric_tracker.log name v e).best_metrics with
        | none => rw [hb] at h2; simp at h2
        | some b => exact ⟨b, rfl⟩
      by_cases h3 : 1 < ((tn.metric_tracker.log name v e).get_all name).length
      · have h4 : 2 ≤ ((tn.metric_tracker.log name v e).get_all name).length := h3
        simp [h1, h2, h3, h4, MetricTracker.get_best, hb]
      · simp [h1, h2, h3, MetricTracker.get_best, hb]
    · simp [h1, h2]
  · simp [h1]

/-- C4: `log_metrics` folds `Tracker.log` over the mapping in insertion
order, dispatches no improvement notification, and performs the
epoch-boundary checkpoint check exactly once (after all entries are
logged). -/
theorem C4_log_metrics_path (tn : TrainingNotifier) (ms : List (String × Rat))
    (e : Option Int) :
    (tn.log_metrics ms e).1.metric_tracker
        = ms.foldl (fun t p => t.log p.1 p.2 e) tn.metric_tracker
    ∧ improvementsOf (tn.log_metrics ms e).2 = []
    ∧ countCheckpoints (tn.log_metrics ms e).2
        = (if epochTruthy e = true ∧ 0 < tn.notify_every_n_epochs
              ∧ (e.getD 0) % tn.notify_every_n_epochs = 0 then 1 else 0) := by
  refine ⟨rfl, ?_, ?_⟩
  · simp only [TrainingNotifier.log_metrics]
    rw [improvementsOf_epoch_checkpoint]
  · simp only [TrainingNotifier.log_metrics]
    rw [countCheckpoints_epoch_checkpoint]

/-- C6 counterexample: at epoch `0` (explicitly given) an improvement
notification reports epoch `2` — the count of recorded values — not the
given epoch `0`, refuting "equals the epoch argument whenever an epoch was
given (including epoch = 0)". -/
theorem C6_epoch_zero_cex :
    (((tnBase.log_metric "loss" 5 (some 0)).1).log_metric "loss" 3 (some 0)).2
        = [Event.improvementEv "loss" 5 3 2]
    ∧ (2 : Int) ≠ 0 := by
  refine ⟨by decide, by decide⟩

/-- C6 amended: every improvement notification dispatched by `log_metric`
reports `epoch` when a non-zero epoch was given, and the count of the
metric's recorded values when the epoch was absent or `0`. -/
theorem C6_epoch_reported (tn : TrainingNotifier) (name : String) (v : Rat)
    (e : Option Int) (p : String) (pv nv : Rat) (se : Int)
    (hmem : Event.improvementEv p pv nv se ∈ (tn.log_metric name v e).2) :
    se = pyOrEpoch e ((tn.metric_tracker.log name v e).get_all name).length := by
  simp only [TrainingNotifier.log_metric] at hmem
  rw [List.mem_append] at hmem
  cases hmem with
  | inl h =>
    have := mem_improvement_check _ name v e _ h
    simp only [Event.improvementEv.injEq] at this
    exact this.2.2.2
  | inr h =>
    have := mem_epoch_checkpoint _ e none _ h
    simp [isCheckpointEv] at this

/-- Witness for C6 at a concrete input: with epoch `7` given, the dispatched
improvement notification reports epoch `7`, the value of the fallback
expression. -/
theorem C6_epoch_reported_witness :
    Event.improvementEv "loss" 5 3 7
        ∈ (((tnBase.log_metric "loss" 5 (some 7)).1).log_metric "loss" 3 (some 7)).2
    ∧ (7 : Int) = pyOrEpoch (some 7)
        ((((tnBase.log_metric "loss" 5 (some 7)).1).metric_tracker.log "loss" 3
          (some 7)).get_all "loss").length :=
  ⟨by decide,
    C6_epoch_reported ((tnBase.log_metric "loss" 5 (some 7)).1) "loss" 3 (some 7)
      "loss" 5 3 7 (by decide)⟩

/-- C7: the dispatch loop never propagates a channel failure — it always
returns normally — and the channels that receive a send call are exactly the
enabled ones, in order, regardless of any failures among them; disabled
channels receive no send call. -/
theorem C7_failure_isolation (ns : List Notifier) :
    send_to_all_notifiers ns
      = Except.ok ((ns.filter Notifier.is_enabled).map Notifier.name) := by
  have h := send_spec ns []
  rw [send_to_all_notifiers, h]
  simp

/-- C8: each channel's cached enablement equals the presence of its minimum
configuration (credentials for email, webhook URL for Slack/Discord), and a
dispatch reaches exactly the channels enabled at construction, independent of
the per-send transport outcomes `er`, `sr`, `dr`. -/
theorem C8_enablement_cached (c : Config) (er sr dr : Except String Bool) :
    (EmailNotifier.init c er).is_enabled
        = (pyTruthyStr c.email_address && pyTruthyStr c.email_password)
    ∧ (SlackNotifier.init c sr).is_enabled = pyTruthyStr c.slack_webhook_url
    ∧ (DiscordNotifier.init c dr).is_enabled = pyTruthyStr c.discord_webhook_url
    ∧ send_to_all_notifiers (setup_notifiers c er sr dr)
        = Except.ok
            ((if pyTruthyStr c.email_address && pyTruthyStr c.email_password
                then ["EmailNotifier"] else [])
              ++ (if pyTruthyStr c.slack_webhook_url then ["SlackNotifier"] else [])
              ++ (if pyTruthyStr c.discord_webhook_url then ["DiscordNotifier"] else [])) := by
  refine ⟨rfl, rfl, rfl, ?_⟩
  have h := send_spec (setup_notifiers c er sr dr) []
  rw [send_to_all_notifiers, h]
  unfold setup_notifiers EmailNotifier.init SlackNotifier.init DiscordNotifier.init
  by_cases h1 : (pyTruthyStr c.email_address && pyTruthyStr c.email_password) = true <;>
    by_cases h2 : pyTruthyStr c.slack_webhook_url = true <;>
      by_cases h3 : pyTruthyStr c.discord_webhook_url = true <;>
        simp [h1, h2, h3, Notifier.is_enabled, List.filter_append]

example : (MetricTracker.init.log "loss" 5 (some 1)).get_all "loss" = [5] := by decide
example : (tnBase.log_metric "loss" 1 (some 0)).2 = [] := by decide
example : countCheckpoints (tnBase.log_metric "loss" 1 (some 10)).2 = 1 := by decide
example :
    (((tnBase.log_metric "loss" 5 (some 0)).1).log_metric "loss" 3 (some 0)).2
      = [Event.improvementEv "loss" 5 3 2] := by decide
example :
    (((tnBase.log_metric "loss" 5 (some 7)).1).log_metric "loss" 3 (some 7)).2
      = [Event.improvementEv "loss" 5 3 7] := by decide
example : is_loss "val_Loss" = true := by decide
example : is_loss "accuracy" = false := by decide
example :
    ((MetricTracker.init.log "loss" 5 (some 1)).log "loss" 3 (some 2)).check_improvement "loss"
      = true := by decide
example :
    ((MetricTracker.init.log "loss" 5 (some 1)).log "loss" 7 (some 2)).check_improvement "loss"
      = false := by decide
